import Mathlib

/-!
Verification of the andesite file server (src/main.go) against its
natural-language specification.

The Go source is shallowly embedded below: pure helpers of `main.go`
become Lean functions; the sqlite-backed tables become lists of row
structures; the startup sequence that touches the database becomes a
state-passing function that also emits a trace of database operations.
Components whose code lives outside the provided source (the permission
predicate, the query helpers of the sqlite wrapper, the multiplexing
filesystem of go-util) are modelled from the specification and marked
as such in their doc comments.
-/

namespace Andesite

/-! ## PathAccessModel (spec §4.1)

Modelled from the spec: the handler code implementing the permission
check is not part of the provided source.  Paths are represented by
their list of path segments (the absolute path "/b/c" is `["b", "c"]`,
the root "/" is `[]`), which makes "path-segment descendant" the strict
list-prefix relation and makes "/" match everything. -/

/-- A path, as its list of segments: the path "/b/c" is `["b", "c"]`, "/" is `[]`. -/
abbrev FilePath := List String

/-- Split a character list at the slashes, dropping empty segments;
`acc` holds the characters of the current segment in reverse. -/
def splitSegsAux : List Char → List Char → List String
  | [], acc => if acc.isEmpty then [] else [String.mk acc.reverse]
  | c :: cs, acc =>
    if c = '/' then
      if acc.isEmpty then splitSegsAux cs []
      else String.mk acc.reverse :: splitSegsAux cs []
    else splitSegsAux cs (c :: acc)

/-- Modelled from the spec: parse an absolute slash-separated path into
its list of non-empty segments. -/
def parsePath (s : String) : FilePath :=
  splitSegsAux s.toList []

/-- Modelled from the spec: `isPermitted(grants, target)` — true iff some
grant equals the target or is a (segment-wise) ancestor of it.  Lookup
walks the grant list only, never the tree. -/
def isPermitted (grants : List FilePath) (target : FilePath) : Bool :=
  grants.any (fun g => g.isPrefixOf target)

/-! ## findFirstNonEmpty / findFirstNonZero (main.go lines 480-496) -/

def findFirstNonEmpty (values : List String) : String :=
  match values with
  | [] => ""
  | v :: rest => if v.length > 0 then v else findFirstNonEmpty rest

def findFirstNonZero (values : List Int) : Int :=
  match values with
  | [] => 0
  | v :: rest => if v ≠ 0 then v else findFirstNonZero rest

/-- main.go line 84: `opPort := findFirstNonZero(*flagPort, config.Port, 8000)`. -/
def effectivePort (flagPort configPort : Int) : Int :=
  findFirstNonZero [flagPort, configPort, 8000]

/-! ## reduceNumber / byteCountIEC (main.go lines 279-293) -/

/-- The Go loop `for n := input / unit; n >= unit; n /= unit` of
`reduceNumber`, returning the final `(div, exp)`.  The loop divides `n`
by `unit` each round; fuel-indexed recursion with fuel `n.toNat`
strictly bounds the number of rounds whenever `unit ≥ 2` (here 1024). -/
def reduceLoop (unit : Int) : Nat → Int → Int → Nat → Int × Nat
  | 0, _, div, exp => (div, exp)
  | fuel + 1, n, div, exp =>
    if n ≥ unit then reduceLoop unit fuel (n / unit) (div * unit) (exp + 1)
    else (div, exp)

/-- Render `x/10` with one decimal digit; approximates Go's `%.1f`
float64 formatting by round-half-up rational rounding (the float branch
is never reached by inputs below `unit`, which is all this development
evaluates). -/
def formatTenths (tenths : Int) : String :=
  toString (tenths / 10) ++ "." ++ toString (tenths % 10)

def reduceNumber (input unit : Int) (base : String) (prefixes : String) : String :=
  if input < unit then
    toString input ++ " " ++ base
  else
    let p := reduceLoop unit input.toNat (input / unit) unit 0
    let div := p.1
    let exp := p.2
    let tenths := (input * 10 + div / 2) / div
    formatTenths tenths ++ " " ++ (String.mk [prefixes.toList.getD exp ' ']) ++ "i" ++ base

def byteCountIEC (b : Int) : String :=
  reduceNumber b 1024 "B" "KMGTPEZY"

/-! ## writeUserDenied (main.go lines 321-350) -/

/-- The observable pieces of the page `writeUserDenied` sends: the HTTP
status code set by `WriteHeader` and the title/message/link passed to
`writeResponse`. -/
structure DeniedResponse where
  status : Nat
  title : String
  message : String
  linkmsg : String
deriving DecidableEq

def writeUserDenied (namePrefix : String) (sessName : Option String)
    (sessID : String) (fileOrAdmin showLogin : Bool) (base : String) : DeniedResponse :=
  let me :=
    match sessName with
    | some n => namePrefix ++ n ++ " (" ++ sessID ++ ")"
    | none => ""
  let message :=
    if fileOrAdmin then
      if showLogin then "You" ++ me ++ " do not have access to this resource."
      else "Unable to find the requested resource for you " ++ me ++ "."
    else "Admin priviledge required. Access denied."
  if showLogin then
    { status := 403, title := "Forbidden", message := message,
      linkmsg := "Please <a href=\x27" ++ base ++ "login\x27>Log In</a>." }
  else
    { status := 403, title := "Not Found", message := message, linkmsg := "" }

/-! ## apiBootstrapRequireLogin (main.go lines 405-438) -/

/-- A row of the `users` table (type UserRow in the source). -/
structure UserRow where
  id : Int
  snowflake : String
  admin : Bool
  name : String
deriving DecidableEq

/-- Modelled from the spec: `queryUserBySnowflake` (not part of the
provided source) selects the users row whose snowflake column matches;
`ok` is false iff no row matches. -/
def queryUserBySnowflake (users : List UserRow) (snowflake : String) : Option UserRow :=
  users.find? (fun u => u.snowflake == snowflake)

/-- The parts of an incoming request `apiBootstrapRequireLogin` inspects:
its HTTP method, the "user" value of its session, and whether
`ParseForm` succeeds. -/
structure ApiCtx where
  method : String
  sessUser : Option String
  formOk : Bool

/-- In apiBootstrapRequireLogin, `some user` models the `(sess, user, nil)`
return, `none` models every early `(nil, UserRow{}, E(""))` return. -/
def apiBootstrapRequireLogin (users : List UserRow) (c : ApiCtx)
    (method : String) (requireAdmin : Bool) : Option UserRow :=
  if c.method ≠ method then none
  else
    match c.sessUser with
    | none => none
    | some sessID =>
      match queryUserBySnowflake users sessID with
      | none => none
      | some user =>
        if requireAdmin && !user.admin then none
        else if c.formOk then some user else none

/-! ## UI-asset overlay (main.go lines 228-250) -/

/-- One `http.FileSystem` source: a theme directory, `./www/`, or the
embedded packr bundle; `files` maps asset paths to contents. -/
structure Source where
  tag : String
  files : List (String × String)
deriving DecidableEq

/-- Open an asset in a single source. -/
def srcOpen (s : Source) (p : String) : Option String :=
  (s.files.find? (fun q => q.1 == p)).map Prod.snd

/-- Modelled from the spec: go-util's `MultiplexFileSystem.Open` (the
type behind `wwFFS`, not part of the provided source) consults its
sources in order; the first source reporting existence wins. -/
def mfsOpen : List Source → String → Option String
  | [], _ => none
  | d :: rest, p =>
    match srcOpen d p with
    | some c => some c
    | none => mfsOpen rest p

/-- main.go lines 228-250: the ordered source list handed to
`MultiplexFileSystem`: CLI `--theme` directories in flag order, then
config-file themes, then `./www/`, then the embedded packr bundle. -/
def buildDirs (cliThemes configThemes : List Source) (www bundle : Source) : List Source :=
  cliThemes ++ configThemes ++ [www, bundle]

/-! ## findStructValueWithTag (main.go lines 468-478) -/

/-- One field of the global `Config` struct with its `json` struct tag. -/
structure ConfigField where
  fieldName : String
  jsonTag : String
deriving DecidableEq

/-- The fields of `Config` (main.go types, lines 564-578) in declaration
order, with their `json` tags. -/
def configFields : List ConfigField :=
  [⟨"Root", "root"⟩, ⟨"Port", "port"⟩, ⟨"Themes", "themes"⟩, ⟨"HTTPBase", "base"⟩,
   ⟨"Auth", "auth"⟩, ⟨"Discord", "discord"⟩, ⟨"Reddit", "reddit"⟩, ⟨"GitHub", "github"⟩,
   ⟨"Google", "google"⟩, ⟨"Facebook", "facebook"⟩, ⟨"Microsoft", "microsoft"⟩,
   ⟨"Providers", "providers"⟩, ⟨"CustomIds", "custom"⟩]

/-- Reading `reflect.StructTag.Get ttype` on a `Config` field: every field
carries only a `json` tag, so any other tag kind reads "". -/
def tagGet (f : ConfigField) (ttype : String) : String :=
  if ttype = "json" then f.jsonTag else ""

/-- In `findStructValueWithTag(item, ttype, tag)` the body reflects over
the package-level `config` variable, never over `item`; the result is
the (name of the) first matching `Config` field, `none` standing for the
`reflect.Zero(nil)` fallthrough. -/
def findStructValueWithTag {α : Type} (item : α) (ttype tag : String) : Option String :=
  (configFields.find? (fun f => tagGet f ttype == tag)).map ConfigField.fieldName

/-! ## The sqlite store and startup (main.go lines 157-192) -/

/-- A row of the `access` table (type UserAccessRow in the source). -/
structure AccessRow where
  id : Int
  user : Int
  path : String
deriving DecidableEq

/-- The two tables the admin bootstrap touches, as ordered row lists. -/
structure DB where
  users : List UserRow
  access : List AccessRow
deriving DecidableEq

/-- Modelled from the spec: go-util sqlite's `QueryNextID` — the
client-side "next id" pre-computation for a table (the spec:
"currently pre-computes next id client-side rather than relying on
store-generated ids"): one more than the largest id in use. -/
def queryNextID (ids : List Int) : Int :=
  (ids.foldl max 0) + 1

def nextUserID (db : DB) : Int := queryNextID (db.users.map UserRow.id)

def nextAccessID (db : DB) : Int := queryNextID (db.access.map AccessRow.id)

/-- Modelled from the spec: `queryDoAddUser` — INSERT one users row with
a caller-chosen id. -/
def queryDoAddUser (db : DB) (uid : Int) (snowflake : String) (admin : Bool)
    (name : String) : DB :=
  { db with users := db.users ++ [⟨uid, snowflake, admin, name⟩] }

/-- main.go line 182: `QueryDoUpdate("users", "admin", "1", "id", uu.id)`. -/
def queryDoSetAdmin (db : DB) (uid : Int) : DB :=
  { db with users :=
      db.users.map (fun u => if u.id == uid then { u with admin := true } else u) }

/-- Modelled from the spec: `queryAccess` — the paths of the access rows
belonging to a user. -/
def queryAccess (db : DB) (u : UserRow) : List String :=
  (db.access.filter (fun a => a.user == u.id)).map AccessRow.path

/-- main.go line 189: `insert into access values (aid, nu.id, "/")`. -/
def queryDoAddAccess (db : DB) (aid uid : Int) (path : String) : DB :=
  { db with access := db.access ++ [⟨aid, uid, path⟩] }

/-- One store operation issued during startup, as observable on the
wire: schema creation, a client-side next-id query (with its result), an
insert carrying its explicitly chosen id, or an update. -/
inductive DbOp where
  | createTable (table : String) (cols : List String)
  | nextID (table : String) (result : Int)
  | insertRow (table : String) (id : Int)
  | updateRow (table : String) (id : Int)
deriving DecidableEq

/-- The table a store operation touches. -/
def DbOp.table : DbOp → String
  | .createTable t _ => t
  | .nextID t _ => t
  | .insertRow t _ => t
  | .updateRow t _ => t

def DbOp.isCreate : DbOp → Bool
  | .createTable _ _ => true
  | _ => false

/-- main.go lines 157-169: the three `CreateTable` calls, column lists
as issued (primary-key column first). -/
def startupSchemaOps : List DbOp :=
  [DbOp.createTable "users" ["id", "snowflake", "admin", "name"],
   DbOp.createTable "access" ["id", "user", "path"],
   DbOp.createTable "shares" ["id", "hash", "path"]]

/-- main.go lines 174-192: the admin bootstrap run when `--admin` is
non-empty.  Returns the updated database together with the trace of
mutating/allocating store operations issued, in order. -/
def adminBootstrapOps (flagAdmin : String) (db : DB) : DB × List DbOp :=
  if flagAdmin = "" then (db, [])
  else
    let step1 : DB × List DbOp :=
      match queryUserBySnowflake db.users flagAdmin with
      | none =>
        let uid := nextUserID db
        (queryDoAddUser db uid flagAdmin true "",
         [DbOp.nextID "users" uid, DbOp.insertRow "users" uid])
      | some uu =>
        if !uu.admin then (queryDoSetAdmin db uu.id, [DbOp.updateRow "users" uu.id])
        else (db, [])
    let db1 := step1.1
    let nu := (queryUserBySnowflake db1.users flagAdmin).getD ⟨0, "", false, ""⟩
    if "/" ∈ queryAccess db1 nu then (db1, step1.2)
    else
      let aid := nextAccessID db1
      (queryDoAddAccess db1 aid nu.id "/",
       step1.2 ++ [DbOp.nextID "access" aid, DbOp.insertRow "access" aid])

def adminBootstrap (flagAdmin : String) (db : DB) : DB :=
  (adminBootstrapOps flagAdmin db).1

/-- main.go lines 157-192: every store operation issued at startup —
schema creation followed by the optional admin bootstrap. -/
def startupDbTrace (flagAdmin : String) (db : DB) : List DbOp :=
  startupSchemaOps ++ (adminBootstrapOps flagAdmin db).2

/-- Two unserialized runs of the users insert (both allocate their id
from the same pre-state, as happens when nothing serializes the two
`QueryNextID`/insert pairs). -/
def unserializedDoubleInsert (db : DB) (s1 s2 : String) : DB :=
  queryDoAddUser (queryDoAddUser db (nextUserID db) s1 true "") (nextUserID db) s2 true ""

end Andesite

namespace Andesite

/-! ## Theorems -/

/-- C1. The predicate `isPermitted(grants, target)` is true iff some grant `g` equals
`target` or `target` is a path-segment descendant of `g`; and for grants
{"/a", "/b/c"}: "/a/x" is permitted, "/b/cx" is not (a grant "/foo"
never matches "/foobar"), "/b/c/d" is permitted. -/
theorem isPermitted_iff_and_examples :
    (∀ (grants : List FilePath) (target : FilePath),
      isPermitted grants target = true ↔
        ∃ g ∈ grants, g = target ∨ (g <+: target ∧ g ≠ target)) ∧
    isPermitted [parsePath "/a", parsePath "/b/c"] (parsePath "/a/x") = true ∧
    isPermitted [parsePath "/a", parsePath "/b/c"] (parsePath "/b/cx") = false ∧
    isPermitted [parsePath "/a", parsePath "/b/c"] (parsePath "/b/c/d") = true ∧
    isPermitted [parsePath "/foo"] (parsePath "/foobar") = false := by
  refine ⟨?_, by decide, by decide, by decide, by decide⟩
  intro grants target
  unfold isPermitted
  rw [List.any_eq_true]
  constructor
  · rintro ⟨g, hg, hpre⟩
    refine ⟨g, hg, ?_⟩
    by_cases heq : g = target
    · exact Or.inl heq
    · exact Or.inr ⟨List.isPrefixOf_iff_prefix.mp hpre, heq⟩
  · rintro ⟨g, hg, h | ⟨hpre, _⟩⟩
    · exact ⟨g, hg, List.isPrefixOf_iff_prefix.mpr (h ▸ List.prefix_refl g)⟩
    · exact ⟨g, hg, List.isPrefixOf_iff_prefix.mpr hpre⟩

/-- C9. The effective port is the first non-zero value among the flag,
the config port and 8000: `findFirstNonZero` returns its first non-zero
argument (0 when all are zero), so an unset flag and config give 8000. -/
theorem findFirstNonZero_spec :
    (∀ values : List Int,
      findFirstNonZero values = (values.find? (fun v => v != 0)).getD 0) ∧
    (∀ flagPort configPort : Int,
      flagPort = 0 → configPort = 0 → effectivePort flagPort configPort = 8000) := by
  constructor
  · intro values
    induction values with
    | nil => rfl
    | cons v rest ih =>
      by_cases h : v = 0
      · have hb : (v != 0) = false := by simp [h]
        simp [findFirstNonZero, List.find?, h, hb, ih]
      · have hb : (v != 0) = true := by simp [h]
        simp [findFirstNonZero, List.find?, h, hb]
  · intro flagPort configPort hf hc
    subst hf; subst hc
    decide

/-- Witness for C9 at flag = 0, config = 0. -/
theorem findFirstNonZero_spec_witness :
    (0 : Int) = 0 ∧ effectivePort 0 0 = 8000 :=
  ⟨rfl, findFirstNonZero_spec.2 0 0 rfl rfl⟩

/-- C10. For every b with `0 ≤ b < 1024`, `byteCountIEC b` is the decimal
representation of `b` followed by " B": `reduceNumber` takes its
exact-integer branch whenever the input is below the unit. -/
theorem byteCountIEC_small (b : Int) (h0 : 0 ≤ b) (h1 : b < 1024) :
    byteCountIEC b = toString b ++ " B" := by
  unfold byteCountIEC reduceNumber
  rw [if_pos h1, String.append_assoc]
  rfl

/-- Witness for C10 at b = 512. -/
theorem byteCountIEC_small_witness :
    ((0 : Int) ≤ 512 ∧ (512 : Int) < 1024) ∧
      byteCountIEC 512 = toString (512 : Int) ++ " B" :=
  ⟨⟨by decide, by decide⟩, byteCountIEC_small 512 (by decide) (by decide)⟩

/-- C2 counterexample: the two file-path denial branches of
`writeUserDenied` send different responses (title "Forbidden" with a
login link versus title "Not Found"), so the full response is not the
same and a principal can tell the branches apart. -/
theorem writeUserDenied_branches_differ :
    writeUserDenied "" none "" true true "" ≠ writeUserDenied "" none "" true false "" := by
  decide

/-- C2 (amended). The function `writeUserDenied` sets HTTP status 403 in every
branch — in particular in both the forbidden branch and the not-found
branch for file paths — so the status code alone does not reveal whether
the resource exists, although the page body differs between branches. -/
theorem writeUserDenied_status_403 (namePrefix : String) (sessName : Option String)
    (sessID : String) (fileOrAdmin showLogin : Bool) (base : String) :
    (writeUserDenied namePrefix sessName sessID fileOrAdmin showLogin base).status = 403 := by
  unfold writeUserDenied
  cases showLogin <;> rfl

/-- C3. With `requireAdmin = true`, `apiBootstrapRequireLogin` yields a
user row exactly when the HTTP method matches, the session carries a
user, that user is in the users table with the admin flag set, and the
form parses; in every other case it returns an error and no row. -/
theorem apiBootstrapRequireLogin_admin_iff (users : List UserRow) (c : ApiCtx)
    (method : String) (u : UserRow) :
    apiBootstrapRequireLogin users c method true = some u ↔
      c.method = method ∧
        ∃ s, c.sessUser = some s ∧ queryUserBySnowflake users s = some u ∧
          u.admin = true ∧ c.formOk = true := by
  constructor
  · intro h
    unfold apiBootstrapRequireLogin at h
    by_cases hm : c.method = method
    · rw [if_neg (by simpa using hm)] at h
      cases hs : c.sessUser with
      | none => rw [hs] at h; simp at h
      | some s =>
        rw [hs] at h
        dsimp only at h
        cases hq : queryUserBySnowflake users s with
        | none => rw [hq] at h; simp at h
        | some user =>
          rw [hq] at h
          dsimp only at h
          by_cases ha : user.admin = true
          · rw [ha] at h
            simp only [Bool.not_true, Bool.and_false, Bool.false_eq_true, if_false] at h
            by_cases hf : c.formOk = true
            · rw [if_pos hf] at h
              injection h with h
              subst h
              exact ⟨hm, s, rfl, hq, ha, hf⟩
            · rw [if_neg hf] at h; simp at h
          · rw [Bool.not_eq_true] at ha
            rw [ha] at h
            simp at h
    · rw [if_pos (by simpa using hm)] at h
      simp at h
  · rintro ⟨hm, s, hs, hq, hadm, hf⟩
    unfold apiBootstrapRequireLogin
    rw [if_neg (by simpa using hm), hs]
    dsimp only
    rw [hq]
    dsimp only
    rw [hadm]
    simp [hf]

/-- C8. The function `findStructValueWithTag` ignores its `item` argument entirely
(its result is the same for any two items of any types), and for every
`ttype` and `tag` it returns the first field of the global `Config`
struct, in declaration order, whose tag of kind `ttype` equals `tag`. -/
theorem findStructValueWithTag_spec :
    (∀ {α β : Type} (a : α) (b : β) (ttype tag : String),
      findStructValueWithTag a ttype tag = findStructValueWithTag b ttype tag) ∧
    (∀ {α : Type} (a : α) (ttype tag n : String),
      findStructValueWithTag a ttype tag = some n ↔
        ∃ i, ∃ h : i < configFields.length,
          (configFields[i]).fieldName = n ∧
          tagGet (configFields[i]) ttype = tag ∧
          ∀ j (hj : j < i), tagGet (configFields[j]) ttype ≠ tag) := by
  constructor
  · intro α β a b ttype tag
    rfl
  · intro α a ttype tag n
    unfold findStructValueWithTag
    rw [Option.map_eq_some']
    constructor
    · rintro ⟨f, hf, rfl⟩
      rw [List.find?_eq_some_iff_getElem] at hf
      obtain ⟨hpf, i, h, hget, hprev⟩ := hf
      refine ⟨i, h, by rw [hget], ?_, ?_⟩
      · rw [hget]
        simpa using hpf
      · intro j hj htag
        have hj2 := hprev j hj
        simp only [Bool.not_eq_eq_eq_not, Bool.not_true, beq_eq_false_iff_ne, ne_eq] at hj2
        exact hj2 htag
    · rintro ⟨i, h, hname, htag, hprev⟩
      refine ⟨configFields[i], ?_, hname⟩
      rw [List.find?_eq_some_iff_getElem]
      refine ⟨by simp [htag], i, h, rfl, ?_⟩
      intro j hj
      simpa using hprev j hj

/-- Running `mfsOpen` over a concatenation: the left block is consulted first. -/
theorem mfsOpen_append (xs ys : List Source) (p : String) :
    mfsOpen (xs ++ ys) p = (mfsOpen xs p).or (mfsOpen ys p) := by
  induction xs with
  | nil => simp [mfsOpen]
  | cons d rest ih =>
    cases hd : srcOpen d p with
    | none => simpa [mfsOpen, hd] using ih
    | some c => simp [mfsOpen, hd]

/-- If some source in the list has the asset, `mfsOpen` finds it. -/
theorem mfsOpen_isSome_of_mem (dirs : List Source) (p : String)
    (h : ∃ t ∈ dirs, (srcOpen t p).isSome) : (mfsOpen dirs p).isSome := by
  induction dirs with
  | nil => simp at h
  | cons d rest ih =>
    cases hd : srcOpen d p with
    | some c => simp [mfsOpen, hd]
    | none =>
      simp only [mfsOpen, hd]
      rcases h with ⟨t, ht, hsome⟩
      rcases List.mem_cons.mp ht with rfl | hmem
      · rw [hd] at hsome; simp at hsome
      · exact ih ⟨t, hmem, hsome⟩

/-- C4. Asset lookup over the startup source list is first-match-wins
(`mfsOpen` returns the first source that has the path), and every theme
directory precedes `./www/` and the embedded bundle in `buildDirs`, so
whenever any theme directory carries the asset, the result is decided
among the theme directories alone — in particular an asset present both
in a theme directory and in the default bundle resolves to the theme
directory's content. -/
theorem overlay_first_match_and_theme_precedence :
    (∀ (dirs : List Source) (p : String),
      mfsOpen dirs p =
        (dirs.find? (fun d => (srcOpen d p).isSome)).bind (fun d => srcOpen d p)) ∧
    (∀ (cliThemes configThemes : List Source) (www bundle : Source) (p : String),
      (∃ t ∈ cliThemes ++ configThemes, (srcOpen t p).isSome) →
        mfsOpen (buildDirs cliThemes configThemes www bundle) p =
          mfsOpen (cliThemes ++ configThemes) p) := by
  constructor
  · intro dirs p
    induction dirs with
    | nil => simp [mfsOpen]
    | cons d rest ih =>
      cases hd : srcOpen d p with
      | some c => simp [mfsOpen, hd, List.find?_cons_of_pos, Option.isSome]
      | none =>
        rw [mfsOpen, hd, List.find?_cons_of_neg _ (by simp [hd])]
        exact ih
  · intro cliThemes configThemes www bundle p h
    have hsome := mfsOpen_isSome_of_mem (cliThemes ++ configThemes) p h
    unfold buildDirs
    rw [mfsOpen_append]
    rcases Option.isSome_iff_exists.mp hsome with ⟨c, hc⟩
    rw [hc]
    rfl

/-- A users row appended behind rows in which the snowflake was not
found is what a fresh lookup returns. -/
theorem queryUserBySnowflake_append_last (users : List UserRow) (s : String)
    (row : UserRow) (hnone : queryUserBySnowflake users s = none)
    (hrow : row.snowflake = s) :
    queryUserBySnowflake (users ++ [row]) s = some row := by
  unfold queryUserBySnowflake at hnone ⊢
  rw [List.find?_append, hnone]
  simp [List.find?_cons, hrow]

/-- Setting the admin column on the id of the row a snowflake lookup
found makes the same lookup return that row with the admin flag on. -/
theorem queryUserBySnowflake_setAdmin (users : List UserRow) (s : String)
    (uu : UserRow) (h : queryUserBySnowflake users s = some uu) :
    queryUserBySnowflake
        (users.map (fun u => if u.id == uu.id then { u with admin := true } else u)) s
      = some { uu with admin := true } := by
  unfold queryUserBySnowflake at h ⊢
  rw [List.find?_map]
  have hp : ((fun u : UserRow => u.snowflake == s) ∘
      (fun u => if u.id == uu.id then { u with admin := true } else u))
      = (fun u : UserRow => u.snowflake == s) := by
    funext u
    dsimp only [Function.comp]
    split <;> rfl
  rw [hp, h]
  simp

/-- Inserting an access row ("/", owner nu) puts "/" into the owner's
queried access set. -/
theorem mem_queryAccess_addAccess (db : DB) (aid : Int) (nu : UserRow) :
    "/" ∈ queryAccess (queryDoAddAccess db aid nu.id "/") nu := by
  unfold queryAccess queryDoAddAccess
  simp [List.filter_append]

/-- C5. With a non-empty --admin snowflake, after bootstrap the lookup
of that snowflake yields a row whose admin flag is true and whose
queried access paths contain "/"; a pre-existing row is updated in place
(the users table does not grow); and when a "/" grant already exists for
the (pre-existing) admin user, the access table is left untouched. -/
theorem adminBootstrap_spec (s : String) (db : DB) (hs : s ≠ "") :
    (∃ nu, queryUserBySnowflake (adminBootstrap s db).users s = some nu ∧
        nu.admin = true ∧ "/" ∈ queryAccess (adminBootstrap s db) nu) ∧
    ((∃ u ∈ db.users, u.snowflake = s) →
        (adminBootstrap s db).users.length = db.users.length) ∧
    (∀ u, queryUserBySnowflake db.users s = some u → "/" ∈ queryAccess db u →
        (adminBootstrap s db).access = db.access) := by
  unfold adminBootstrap adminBootstrapOps
  rw [if_neg hs]
  cases hfind : queryUserBySnowflake db.users s with
  | none =>
    dsimp only
    have hnu := queryUserBySnowflake_append_last db.users s
      ⟨nextUserID db, s, true, ""⟩ hfind rfl
    have hnoex : ¬ ∃ u ∈ db.users, u.snowflake = s := by
      rintro ⟨u, hu, hsnow⟩
      have := List.find?_eq_none.mp hfind u hu
      simp [hsnow] at this
    refine ?_
    rw [show queryUserBySnowflake (queryDoAddUser db (nextUserID db) s true "").users s
        = some ⟨nextUserID db, s, true, ""⟩ from hnu]
    dsimp only [Option.getD]
    by_cases hacc : "/" ∈ queryAccess (queryDoAddUser db (nextUserID db) s true "")
        ⟨nextUserID db, s, true, ""⟩
    · rw [if_pos hacc]
      exact ⟨⟨⟨nextUserID db, s, true, ""⟩, hnu, rfl, hacc⟩,
        fun hex => absurd hex hnoex,
        fun u hu _ => Option.noConfusion hu⟩
    · rw [if_neg hacc]
      refine ⟨⟨⟨nextUserID db, s, true, ""⟩, hnu, rfl, ?_⟩,
        fun hex => absurd hex hnoex,
        fun u hu _ => Option.noConfusion hu⟩
      exact mem_queryAccess_addAccess _ _ ⟨nextUserID db, s, true, ""⟩
  | some uu =>
    simp only []
    by_cases hadm : uu.admin = true
    · rw [hadm]
      simp only [Bool.not_true, Bool.false_eq_true, if_false]
      rw [hfind]
      dsimp only [Option.getD]
      by_cases hacc : "/" ∈ queryAccess db uu
      · rw [if_pos hacc]
        exact ⟨⟨uu, hfind, hadm, hacc⟩, fun _ => rfl, fun _ _ _ => rfl⟩
      · rw [if_neg hacc]
        refine ⟨⟨uu, hfind, hadm, mem_queryAccess_addAccess _ _ uu⟩,
          fun _ => rfl, ?_⟩
        intro u hu hmem
        injection hu with hu
        subst hu
        exact absurd hmem hacc
    · rw [Bool.not_eq_true] at hadm
      rw [hadm]
      simp only [Bool.not_false, if_true]
      have hnu := queryUserBySnowflake_setAdmin db.users s uu hfind
      rw [show queryUserBySnowflake (queryDoSetAdmin db uu.id).users s
          = some { uu with admin := true } from hnu]
      dsimp only [Option.getD]
      by_cases hacc : "/" ∈ queryAccess (queryDoSetAdmin db uu.id) { uu with admin := true }
      · rw [if_pos hacc]
        refine ⟨⟨{ uu with admin := true }, hnu, rfl, hacc⟩, fun _ => ?_, fun _ _ _ => rfl⟩
        exact List.length_map _ _
      · rw [if_neg hacc]
        refine ⟨⟨{ uu with admin := true }, hnu, rfl,
            mem_queryAccess_addAccess _ _ { uu with admin := true }⟩,
          fun _ => List.length_map _ _, ?_⟩
        intro u hu hmem
        injection hu with hu
        subst hu
        exact absurd hmem hacc

/-- Witness for C5: a database holding one non-admin row for snowflake
"42" and no access rows. -/
theorem adminBootstrap_spec_witness :
    ("42" : String) ≠ "" ∧
    ((∃ nu, queryUserBySnowflake
          (adminBootstrap "42" ⟨[⟨1, "42", false, "bob"⟩], []⟩).users "42" = some nu ∧
        nu.admin = true ∧
        "/" ∈ queryAccess (adminBootstrap "42" ⟨[⟨1, "42", false, "bob"⟩], []⟩) nu) ∧
    ((∃ u ∈ ([⟨1, "42", false, "bob"⟩] : List UserRow), u.snowflake = "42") →
        (adminBootstrap "42" ⟨[⟨1, "42", false, "bob"⟩], []⟩).users.length
          = ([⟨1, "42", false, "bob"⟩] : List UserRow).length) ∧
    (∀ u, queryUserBySnowflake [⟨1, "42", false, "bob"⟩] "42" = some u →
        "/" ∈ queryAccess ⟨[⟨1, "42", false, "bob"⟩], []⟩ u →
        (adminBootstrap "42" ⟨[⟨1, "42", false, "bob"⟩], []⟩).access = [])) :=
  ⟨by decide, adminBootstrap_spec "42" ⟨[⟨1, "42", false, "bob"⟩], []⟩ (by decide)⟩

/-- The bootstrap trace decomposes into a user phase (nothing, a
next-id/insert pair on `users`, or a single update) followed by an
access phase (nothing, or a next-id/insert pair on `access`). -/
theorem adminBootstrapOps_trace_cases (s : String) (db : DB) :
    ∃ userOps accessOps, (adminBootstrapOps s db).2 = userOps ++ accessOps ∧
      (userOps = [] ∨
        (∃ uid, userOps = [DbOp.nextID "users" uid, DbOp.insertRow "users" uid]) ∨
        (∃ uid, userOps = [DbOp.updateRow "users" uid])) ∧
      (accessOps = [] ∨
        ∃ aid, accessOps = [DbOp.nextID "access" aid, DbOp.insertRow "access" aid]) := by
  unfold adminBootstrapOps
  by_cases hs : s = ""
  · rw [if_pos hs]
    exact ⟨[], [], rfl, Or.inl rfl, Or.inl rfl⟩
  · rw [if_neg hs]
    cases hfind : queryUserBySnowflake db.users s with
    | none =>
      dsimp only
      have hnu := queryUserBySnowflake_append_last db.users s
        ⟨nextUserID db, s, true, ""⟩ hfind rfl
      rw [show queryUserBySnowflake (queryDoAddUser db (nextUserID db) s true "").users s
          = some ⟨nextUserID db, s, true, ""⟩ from hnu]
      dsimp only [Option.getD]
      by_cases hacc : "/" ∈ queryAccess (queryDoAddUser db (nextUserID db) s true "")
          ⟨nextUserID db, s, true, ""⟩
      · rw [if_pos hacc]
        exact ⟨[DbOp.nextID "users" (nextUserID db), DbOp.insertRow "users" (nextUserID db)],
          [], by simp, Or.inr (Or.inl ⟨_, rfl⟩), Or.inl rfl⟩
      · rw [if_neg hacc]
        exact ⟨[DbOp.nextID "users" (nextUserID db), DbOp.insertRow "users" (nextUserID db)],
          [DbOp.nextID "access" (nextAccessID (queryDoAddUser db (nextUserID db) s true "")),
           DbOp.insertRow "access" (nextAccessID (queryDoAddUser db (nextUserID db) s true ""))],
          rfl, Or.inr (Or.inl ⟨_, rfl⟩), Or.inr ⟨_, rfl⟩⟩
    | some uu =>
      simp only []
      by_cases hadm : uu.admin = true
      · rw [hadm]
        simp only [Bool.not_true, Bool.false_eq_true, if_false]
        rw [hfind]
        dsimp only [Option.getD]
        by_cases hacc : "/" ∈ queryAccess db uu
        · rw [if_pos hacc]
          exact ⟨[], [], rfl, Or.inl rfl, Or.inl rfl⟩
        · rw [if_neg hacc]
          exact ⟨[], [DbOp.nextID "access" (nextAccessID db),
            DbOp.insertRow "access" (nextAccessID db)], rfl, Or.inl rfl, Or.inr ⟨_, rfl⟩⟩
      · rw [Bool.not_eq_true] at hadm
        rw [hadm]
        simp only [Bool.not_false, if_true]
        have hnu := queryUserBySnowflake_setAdmin db.users s uu hfind
        rw [show queryUserBySnowflake (queryDoSetAdmin db uu.id).users s
            = some { uu with admin := true } from hnu]
        dsimp only [Option.getD]
        by_cases hacc : "/" ∈ queryAccess (queryDoSetAdmin db uu.id) { uu with admin := true }
        · rw [if_pos hacc]
          exact ⟨[DbOp.updateRow "users" uu.id], [], by simp,
            Or.inr (Or.inr ⟨_, rfl⟩), Or.inl rfl⟩
        · rw [if_neg hacc]
          exact ⟨[DbOp.updateRow "users" uu.id],
            [DbOp.nextID "access" (nextAccessID (queryDoSetAdmin db uu.id)),
             DbOp.insertRow "access" (nextAccessID (queryDoSetAdmin db uu.id))],
            rfl, Or.inr (Or.inr ⟨_, rfl⟩), Or.inr ⟨_, rfl⟩⟩

/-- C6 counterexample: the startup trace never creates a users table
with an "externalId" column — the second column is named "snowflake". -/
theorem startup_users_externalId_cx :
    DbOp.createTable "users" ["id", "externalId", "admin", "name"]
      ∉ startupDbTrace "" ⟨[], []⟩ := by
  decide

/-- C6 (amended). Every startup creates exactly three tables —
users(id, snowflake, admin, name) (the snowflake column holding the
external id), access(id, user, path), shares(id, hash, path) — and every
store operation of the startup trace touches only these three tables:
no other state is persisted. -/
theorem startupTables_spec (flagAdmin : String) (db : DB) :
    (startupDbTrace flagAdmin db).filter DbOp.isCreate =
      [DbOp.createTable "users" ["id", "snowflake", "admin", "name"],
       DbOp.createTable "access" ["id", "user", "path"],
       DbOp.createTable "shares" ["id", "hash", "path"]] ∧
    ∀ op ∈ startupDbTrace flagAdmin db,
      DbOp.table op = "users" ∨ DbOp.table op = "access" ∨ DbOp.table op = "shares" := by
  obtain ⟨uOps, aOps, htr, hu, ha⟩ := adminBootstrapOps_trace_cases flagAdmin db
  have huser : ∀ op ∈ uOps, DbOp.isCreate op = false ∧ DbOp.table op = "users" := by
    rcases hu with rfl | ⟨uid, rfl⟩ | ⟨uid, rfl⟩ <;> intro op hop <;> simp at hop
    · rcases hop with rfl | rfl <;> exact ⟨rfl, rfl⟩
    · rcases hop with rfl
      exact ⟨rfl, rfl⟩
  have haccess : ∀ op ∈ aOps, DbOp.isCreate op = false ∧ DbOp.table op = "access" := by
    rcases ha with rfl | ⟨aid, rfl⟩ <;> intro op hop <;> simp at hop
    rcases hop with rfl | rfl <;> exact ⟨rfl, rfl⟩
  constructor
  · unfold startupDbTrace
    rw [htr, List.filter_append, List.filter_append]
    have h1 : uOps.filter DbOp.isCreate = [] :=
      List.filter_eq_nil_iff.mpr (fun op hop => by simp [(huser op hop).1])
    have h2 : aOps.filter DbOp.isCreate = [] :=
      List.filter_eq_nil_iff.mpr (fun op hop => by simp [(haccess op hop).1])
    rw [h1, h2]
    rfl
  · intro op hop
    unfold startupDbTrace at hop
    rw [htr] at hop
    rcases List.mem_append.mp hop with hsch | hboot
    · unfold startupSchemaOps at hsch
      simp at hsch
      rcases hsch with rfl | rfl | rfl
      · exact Or.inl rfl
      · exact Or.inr (Or.inl rfl)
      · exact Or.inr (Or.inr rfl)
    · rcases List.mem_append.mp hboot with hop2 | hop2
      · exact Or.inl (huser op hop2).2
      · exact Or.inr (Or.inl (haccess op hop2).2)

/-- C7. Every users/access row inserted during startup carries an id
that was produced by a client-side next-id query issued earlier in the
trace for the same table (the insert op itself carries the
client-chosen id; no store-generated id is involved); and two
unserialized runs of the insert both allocate the same id from the
shared pre-state, producing duplicate ids. -/
theorem clientSideNextId_spec :
    (∀ (s : String) (db : DB) (t : String) (i : Int),
      DbOp.insertRow t i ∈ startupDbTrace s db →
        List.Sublist [DbOp.nextID t i, DbOp.insertRow t i] (startupDbTrace s db)) ∧
    (∀ (db : DB) (s1 s2 : String),
      ¬ ((unserializedDoubleInsert db s1 s2).users.map UserRow.id).Nodup) := by
  constructor
  · intro s db t i hmem
    unfold startupDbTrace at hmem ⊢
    obtain ⟨uOps, aOps, htr, hu, ha⟩ := adminBootstrapOps_trace_cases s db
    rw [htr] at hmem ⊢
    have hbase : List.Sublist (uOps ++ aOps) (startupSchemaOps ++ (uOps ++ aOps)) :=
      List.sublist_append_right _ _
    rcases List.mem_append.mp hmem with hsch | hboot
    · unfold startupSchemaOps at hsch
      simp at hsch
    · have haOnly : DbOp.insertRow t i ∈ aOps →
          List.Sublist [DbOp.nextID t i, DbOp.insertRow t i]
            (startupSchemaOps ++ (uOps ++ aOps)) := by
        intro hmem2
        rcases ha with rfl | ⟨aid, rfl⟩
        · simp at hmem2
        · simp at hmem2
          rcases hmem2 with ⟨rfl, rfl⟩
          exact (List.sublist_append_right uOps _).trans hbase
      rcases List.mem_append.mp hboot with hmem2 | hmem2
      · rcases hu with rfl | ⟨uid, rfl⟩ | ⟨uid, rfl⟩
        · simp at hmem2
        · simp at hmem2
          rcases hmem2 with ⟨rfl, rfl⟩
          exact (List.sublist_append_left _ aOps).trans hbase
        · simp at hmem2
      · exact haOnly hmem2
  · intro db s1 s2 h
    have hsub : List.Sublist [nextUserID db, nextUserID db]
        ((unserializedDoubleInsert db s1 s2).users.map UserRow.id) := by
      unfold unserializedDoubleInsert queryDoAddUser
      dsimp only
      rw [List.map_append, List.map_append, List.append_assoc]
      exact List.sublist_append_right _ _
    have hnd := List.Nodup.sublist hsub h
    simp at hnd

/-- Witness for C7: with an empty database and --admin "7", the trace
contains the users insert with id 1 and a preceding next-id query. -/
theorem clientSideNextId_spec_witness :
    DbOp.insertRow "users" 1 ∈ startupDbTrace "7" ⟨[], []⟩ ∧
    List.Sublist [DbOp.nextID "users" 1, DbOp.insertRow "users" 1]
      (startupDbTrace "7" ⟨[], []⟩) :=
  ⟨by decide, clientSideNextId_spec.1 "7" ⟨[], []⟩ "users" 1 (by decide)⟩

/-- Witness for C4: a theme directory and the default bundle both hold
"style.css"; lookup returns the theme's content. -/
theorem overlay_first_match_and_theme_precedence_witness :
    (∃ t ∈ [Source.mk "theme" [("style.css", "theme-css")]],
      (srcOpen t "style.css").isSome) ∧
    mfsOpen
      (buildDirs [Source.mk "theme" [("style.css", "theme-css")]] []
        (Source.mk "www" []) (Source.mk "bundle" [("style.css", "default-css")]))
      "style.css" = some "theme-css" :=
  ⟨by decide,
    (overlay_first_match_and_theme_precedence.2
      [Source.mk "theme" [("style.css", "theme-css")]] []
      (Source.mk "www" []) (Source.mk "bundle" [("style.css", "default-css")])
      "style.css" (by decide)).trans (by decide)⟩

end Andesite
